import Mathlib

/-!
Shallow embedding of the `ipc` crate (Unix-domain-socket IPC library).

Strings are Lean `String`s; byte sequences are `List Nat` (each entry a
byte value); I/O results of the underlying socket calls are passed in as
explicit `Except` parameters, so that each wrapper function of the crate
becomes a pure Lean function of the outcome of the system calls it makes.
A construction that panics in Rust (out-of-bounds index) is modelled by an
`Option` result, `none` standing for the panic.
-/

namespace IPC

/-- `SOCKET_PATH` from `src/lib.rs`: default base directory for sockets. -/
def SOCKET_PATH : String := "/var/lib/tag_connectivity/sockets"

/-- UTF-8 encoding of a single character, as the list of its byte values
(the byte view `str::as_bytes` of a Rust string). -/
def utf8EncodeChar (c : Char) : List Nat :=
  if c.toNat < 0x80 then [c.toNat]
  else if c.toNat < 0x800 then [0xC0 + c.toNat / 0x40, 0x80 + c.toNat % 0x40]
  else if c.toNat < 0x10000 then
    [0xE0 + c.toNat / 0x1000, 0x80 + c.toNat / 0x40 % 0x40, 0x80 + c.toNat % 0x40]
  else
    [0xF0 + c.toNat / 0x40000, 0x80 + c.toNat / 0x1000 % 0x40,
     0x80 + c.toNat / 0x40 % 0x40, 0x80 + c.toNat % 0x40]

/-- The byte view of a string (`str::as_bytes`). -/
def strBytes (s : String) : List Nat :=
  (s.data.map utf8EncodeChar).flatten

/-- Path resolution performed inline by `Server::new` (`src/lib.rs`):
`socket_name.as_bytes()[0] == b'/'` selects the name unchanged, otherwise
`format!("{SOCKET_PATH}/{socket_name}")`.  Indexing byte 0 of an empty
name panics, modelled as `none`. -/
def Server.resolvePath (socket_name : String) : Option String :=
  match (strBytes socket_name).head? with
  | none => none
  | some b =>
    some (if b = 47 then socket_name else SOCKET_PATH ++ "/" ++ socket_name)

/-- Path resolution performed inline by `Client::new` (`src/lib.rs`):
`path.as_bytes()[0] != b'/'` selects `format!("{}/{}", SOCKET_PATH, path)`,
otherwise the path unchanged.  Indexing byte 0 of an empty path panics,
modelled as `none`. -/
def Client.resolvePath (path : String) : Option String :=
  match (strBytes path).head? with
  | none => none
  | some b =>
    some (if b ≠ 47 then SOCKET_PATH ++ "/" ++ path else path)

/-- The connect path computed by `Client::send_one_shot` (`src/lib.rs`):
always `format!("{}/{}", SOCKET_PATH, path.into())`, with no check for a
leading separator. -/
def Client.oneShotPath (path : String) : String :=
  SOCKET_PATH ++ "/" ++ path

/-- Path resolution performed inline by `RawListener::new`
(`src/server/mod.rs`): `socket_name.starts_with('/')` selects the name
unchanged, otherwise `format!("{SOCKET_PATH}/{socket_name}")`.  Total:
`starts_with` on the empty string is simply `false`. -/
def RawListener.resolvePath (socket_name : String) : String :=
  if socket_name.data.head? = some '/' then socket_name
  else SOCKET_PATH ++ "/" ++ socket_name

/-- Modelled from the spec: `get_full_path`, the crate's Path Resolver
called by `AsyncServer::new` and `new_client_async`
(`src/async_wrapper/mod.rs`) but whose definition is not among the given
source files.  Per the spec: if the name begins with the path separator it
is returned unchanged, otherwise `base/name`. -/
def get_full_path (name : String) : String :=
  if name.data.head? = some '/' then name
  else SOCKET_PATH ++ "/" ++ name

/-- I/O errors.  `eof` is `std::io::ErrorKind::UnexpectedEof` (the
"No data read" / end-of-stream error built by the async readers); every
other error is abstracted by a numeric code. -/
inductive IOErr where
  | eof
  | other (code : Nat)
deriving DecidableEq

/-- The Unicode replacement character U+FFFD used by lossy UTF-8
decoding. -/
def replChar : Char := Char.ofNat 0xFFFD

/-- Is `n` a UTF-8 continuation byte (`0x80 ..= 0xBF`)? -/
def isCont (n : Nat) : Bool := decide (0x80 ≤ n ∧ n ≤ 0xBF)

/-- Lossy UTF-8 decoding of a byte list into characters, following
`String::from_utf8_lossy`: well-formed sequences decode to their scalar
value, every maximal invalid subpart is replaced by U+FFFD.  Overlong
encodings, surrogates and values above U+10FFFF are rejected via the
constrained ranges of the byte after the lead byte. -/
def utf8LossyChars : List Nat → List Char
  | [] => []
  | b :: rest =>
    if b < 0x80 then Char.ofNat b :: utf8LossyChars rest
    else if b < 0xC2 then replChar :: utf8LossyChars rest
    else if b ≤ 0xDF then
      match h1 : rest with
      | [] => [replChar]
      | b1 :: rest2 =>
        if isCont b1 then
          Char.ofNat ((b - 0xC0) * 0x40 + (b1 - 0x80)) :: utf8LossyChars rest2
        else replChar :: utf8LossyChars rest
    else if b ≤ 0xEF then
      match h1 : rest with
      | [] => [replChar]
      | b1 :: rest2 =>
        if isCont b1 ∧ (b = 0xE0 → 0xA0 ≤ b1) ∧ (b = 0xED → b1 ≤ 0x9F) then
          match h2 : rest2 with
          | [] => [replChar]
          | b2 :: rest3 =>
            if isCont b2 then
              Char.ofNat ((b - 0xE0) * 0x1000 + (b1 - 0x80) * 0x40 + (b2 - 0x80))
                :: utf8LossyChars rest3
            else replChar :: utf8LossyChars rest2
        else replChar :: utf8LossyChars rest
    else if b ≤ 0xF4 then
      match h1 : rest with
      | [] => [replChar]
      | b1 :: rest2 =>
        if isCont b1 ∧ (b = 0xF0 → 0x90 ≤ b1) ∧ (b = 0xF4 → b1 ≤ 0x8F) then
          match h2 : rest2 with
          | [] => [replChar]
          | b2 :: rest3 =>
            if isCont b2 then
              match h3 : rest3 with
              | [] => [replChar]
              | b3 :: rest4 =>
                if isCont b3 then
                  Char.ofNat ((b - 0xF0) * 0x40000 + (b1 - 0x80) * 0x1000 +
                    (b2 - 0x80) * 0x40 + (b3 - 0x80)) :: utf8LossyChars rest4
                else replChar :: utf8LossyChars rest3
            else replChar :: utf8LossyChars rest2
        else replChar :: utf8LossyChars rest
    else replChar :: utf8LossyChars rest
termination_by l => l.length
decreasing_by all_goals (subst_vars; simp_wf <;> omega)

/-- `String::from_utf8_lossy` on a byte list. -/
def utf8Lossy (bytes : List Nat) : String := ⟨utf8LossyChars bytes⟩

/-- A persistent-connection `Connection` of `src/server/async_wrapper.rs`,
wrapping one connected stream (streams are identified by a `Nat`). -/
structure Connection where
  stream : Nat
deriving DecidableEq

/-- An `AsyncConnection` of `src/async_wrapper/mod.rs`. -/
structure AsyncConnection where
  stream : Nat
deriving DecidableEq

/-- `AsyncConnection::read_raw` (`src/async_wrapper/mod.rs`): one
underlying `stream.read` whose outcome is `streamRead` — on success the
list of bytes placed in the caller's buffer.  A zero-byte success becomes
the `UnexpectedEof` ("No data read") error; otherwise the byte count and
the buffer contents are returned. -/
def AsyncConnection.read_raw (streamRead : Except IOErr (List Nat)) :
    Except IOErr (Nat × List Nat) :=
  match streamRead with
  | .error e => .error e
  | .ok bytes =>
    if bytes.length = 0 then .error IOErr.eof
    else .ok (bytes.length, bytes)

/-- `AsyncConnection::read` (`src/async_wrapper/mod.rs`): one underlying
`stream.read` into a 1024-byte internal buffer; a zero-byte success
becomes `UnexpectedEof`; otherwise the received bytes are decoded with
`String::from_utf8_lossy` and converted by the caller-supplied
`T: From<String>` conversion `conv`. -/
def AsyncConnection.read {T : Type} (conv : String → T)
    (streamRead : Except IOErr (List Nat)) : Except IOErr T :=
  match streamRead with
  | .error e => .error e
  | .ok buf =>
    if buf.length = 0 then .error IOErr.eof
    else .ok (conv (utf8Lossy buf))

/-- `Connection::read` (`src/server/async_wrapper.rs`): one underlying
`stream.read` into a 1024-byte internal buffer, then lossy UTF-8 decode
and the caller-supplied conversion.  There is no zero-byte check. -/
def Connection.read {T : Type} (conv : String → T)
    (streamRead : Except IOErr (List Nat)) : Except IOErr T :=
  match streamRead with
  | .error e => .error e
  | .ok buf => .ok (conv (utf8Lossy buf))

/-- `Client::read` (`src/lib.rs`): `self.connection.read(buf)`, the
underlying read result passed through unchanged (count of bytes read). -/
def Client.read (streamRead : Except IOErr Nat) : Except IOErr Nat :=
  streamRead

/-- What `stream.read` delivers when reading into the 1024-byte internal
buffer of the typed readers, out of the bytes `avail` pending on the
stream. -/
def streamRead1024 (avail : List Nat) : List Nat := avail.take 1024

/-- What `stream.read` delivers when reading into a caller buffer of
`bufLen` bytes out of the pending bytes `chan`: the delivered prefix and
the bytes left pending. -/
def streamReadOnce (bufLen : Nat) (chan : List Nat) : List Nat × List Nat :=
  (chan.take bufLen, chan.drop bufLen)

/-- `write_all` on a Unix stream, modelled on the channel of in-flight
bytes: all-or-nothing append of the whole payload. -/
def UnixStream.write_all (chan data : List Nat) : List Nat := chan ++ data

/-- `Client::send` (`src/lib.rs`): `self.connection.write_all(data)`. -/
def Client.send (chan data : List Nat) : List Nat :=
  UnixStream.write_all chan data

/-- `ResponseOption` (`src/lib.rs`): wait for a response into a caller
buffer (of the given capacity), or fire and forget. -/
inductive ResponseOption where
  | waitForResponse (bufCap : Nat)
  | dontWaitForResponse
deriving DecidableEq

/-- Observable actions of one `Client::send_one_shot` call.  `connected`
carries the path handed to `UnixStream::connect`; `closed` is the drop of
the connection when the call returns. -/
inductive OneShotEvent where
  | connected (p : String)
  | wrote (data : List Nat)
  | readEv
  | closed
deriving DecidableEq

/-- `Client::send_one_shot` (`src/lib.rs`): connect to
`format!("{}/{}", SOCKET_PATH, path)`, `write_all` the payload, then
either one read into the caller's buffer (returning its byte count) or an
immediate `Ok(0)`.  The outcomes of the three underlying calls are the
`connectRes`/`writeRes`/`readRes` parameters; the returned event list
records, in order, what the call did, with `closed` marking the drop of
`con` on every exit path after a successful connect. -/
def Client.send_one_shot (data : List Nat) (path : String)
    (wait_for_response : ResponseOption)
    (connectRes : Except IOErr Unit) (writeRes : Except IOErr Unit)
    (readRes : Except IOErr Nat) : Except IOErr Nat × List OneShotEvent :=
  match connectRes with
  | .error e => (.error e, [])
  | .ok _ =>
    match writeRes with
    | .error e => (.error e, [.connected (Client.oneShotPath path), .closed])
    | .ok _ =>
      match wait_for_response with
      | .waitForResponse _ =>
        match readRes with
        | .error e =>
          (.error e,
           [.connected (Client.oneShotPath path), .wrote data, .readEv, .closed])
        | .ok n =>
          (.ok n,
           [.connected (Client.oneShotPath path), .wrote data, .readEv, .closed])
      | .dontWaitForResponse =>
        (.ok 0, [.connected (Client.oneShotPath path), .wrote data, .closed])

/-- A `Server` (`src/lib.rs`): the stored socket name and the path its
`UnixListener` is bound to. -/
structure Server where
  socket_name : String
  listener : String
deriving DecidableEq

/-- Filesystem actions performed by listener construction, in order. -/
inductive BindEvent where
  | removeFile (p : String)
  | bind (p : String)
deriving DecidableEq

/-- `Server::new` (`src/lib.rs`): resolve the path (panics on an empty
name, hence the outer `Option`), best-effort `remove_file` whose failure
is only logged, then `UnixListener::bind`; only the bind outcome decides
the result.  `removeRes` and `bindRes` are the outcomes of the two
filesystem calls; the event list records both calls in order. -/
def Server.new (socket_name : String) (removeRes : Except IOErr Unit)
    (bindRes : Except IOErr Unit) :
    Option (Except IOErr Server × List BindEvent) :=
  match Server.resolvePath socket_name with
  | none => none
  | some server_path =>
    let events := [BindEvent.removeFile server_path, BindEvent.bind server_path]
    let _ : Unit := match removeRes with
      | .ok _ => ()
      | .error _ => ()
    match bindRes with
    | .error e => some (.error e, events)
    | .ok _ =>
      some (.ok { socket_name := socket_name, listener := server_path }, events)

/-- An `AsyncServer` (`src/async_wrapper/mod.rs`): the bound listener path
and the raw socket name. -/
structure AsyncServer where
  listener : String
  raw_path : String
deriving DecidableEq

/-- `AsyncServer::new` (`src/async_wrapper/mod.rs`): `get_full_path`,
best-effort `remove_file` whose failure is ignored, then
`UnixListener::bind`; only the bind outcome decides the result. -/
def AsyncServer.new (sock_name : String) (removeRes : Except IOErr Unit)
    (bindRes : Except IOErr Unit) :
    Except IOErr AsyncServer × List BindEvent :=
  let full_path := get_full_path sock_name
  let events := [BindEvent.removeFile full_path, BindEvent.bind full_path]
  let _ : Unit := match removeRes with
    | .ok _ => ()
    | .error _ => ()
  match bindRes with
  | .error e => (.error e, events)
  | .ok _ => (.ok { listener := full_path, raw_path := sock_name }, events)

/-- `Server::handle_client` (`src/lib.rs`): wrap the accepted stream in a
`StreamData` and invoke the callback once, then return `Ok(())`.  The
callback returns `()` in Rust, so it cannot fail — but it can panic,
modelled by the callback returning `none`, which makes `handle_client`
itself `none` (the unwinding propagates). -/
def Server.handle_client (callback : Nat → Option Unit) (stream : Nat) :
    Option (Except IOErr Unit) :=
  match callback stream with
  | none => none
  | some _ => some (.ok ())

/-- Events observable from `Server::listen`: each accepted stream, and
each invocation of the callback on it. -/
inductive LEvent where
  | accepted (s : Nat)
  | invoked (s : Nat)
deriving DecidableEq

/-- How a run of `Server::listen` over a finite prefix of the incoming
iterator ends: still looping (`pending`), an error returned by `?`
(`err`), or a callback panic unwinding out of the loop (`panicked`). -/
inductive ListenOutcome where
  | pending
  | err (e : IOErr)
  | panicked
deriving DecidableEq

/-- `Server::listen` (`src/lib.rs`): `for stream in self.listener.incoming()`
— each item is an accept outcome; an `Err` item is returned by `?`,
terminating the loop; an `Ok` stream is passed to `handle_client`, whose
`?` would propagate an error and whose panic unwinds.  Runs over a finite
prefix `incoming` of the (never-ending) iterator and also returns the
event trace. -/
def Server.listen (callback : Nat → Option Unit) :
    List (Except IOErr Nat) → ListenOutcome × List LEvent
  | [] => (.pending, [])
  | .error e :: _ => (.err e, [])
  | .ok s :: rest =>
    match Server.handle_client callback s with
    | none => (.panicked, [.accepted s, .invoked s])
    | some (.error e) => (.err e, [.accepted s, .invoked s])
    | some (.ok _) =>
      let r := Server.listen callback rest
      (r.1, .accepted s :: .invoked s :: r.2)

/-- `AsyncServer::wait_for_connection` (`src/async_wrapper/mod.rs`):
`self.listener.accept().await.map(|data| AsyncConnection::new(data.0)).ok()`
— the accept outcome is mapped into a connection and the error is
discarded by `.ok()`. -/
def AsyncServer.wait_for_connection (acceptRes : Except IOErr Nat) :
    Option AsyncConnection :=
  (acceptRes.map fun data => AsyncConnection.mk data).toOption

/-- `AsyncListener::wait_for_connection` (`src/server/async_wrapper.rs`):
`self.ipc_server.wait_connection().ok().map(|data| Connection::new(..))` —
the error is discarded by `.ok()` and the stream wrapped. -/
def AsyncListener.wait_for_connection (acceptRes : Except IOErr Nat) :
    Option Connection :=
  acceptRes.toOption.map fun data => Connection.mk data

/-! ## Helper lemmas -/

theorem utf8EncodeChar_ne_nil (c : Char) : utf8EncodeChar c ≠ [] := by
  unfold utf8EncodeChar
  split_ifs <;> simp

theorem head_utf8EncodeChar (c : Char) :
    (utf8EncodeChar c).head? = some 47 ↔ c = '/' := by
  constructor
  · intro h
    unfold utf8EncodeChar at h
    split_ifs at h with h1 h2 h3 <;> simp at h <;> try omega
    have h47 : c.toNat = 47 := h
    have hc := Char.ofNat_toNat c
    rw [h47] at hc
    exact hc.symm
  · rintro rfl
    decide

theorem data_ne_nil_of_ne_empty (s : String) (h : s ≠ "") : s.data ≠ [] := by
  intro hd
  apply h
  cases s with
  | mk l => cases hd; rfl

theorem strBytes_head (s : String) (c : Char) (cs : List Char)
    (h : s.data = c :: cs) : (strBytes s).head? = (utf8EncodeChar c).head? := by
  unfold strBytes
  rw [h]
  rcases he : utf8EncodeChar c with _ | ⟨b, bs⟩
  · exact absurd he (utf8EncodeChar_ne_nil c)
  · simp [he]

theorem strBytes_head_exists (s : String) (h : s ≠ "") :
    ∃ b, (strBytes s).head? = some b := by
  rcases hd : s.data with _ | ⟨c, cs⟩
  · exact absurd hd (data_ne_nil_of_ne_empty s h)
  · rw [strBytes_head s c cs hd]
    rcases he : utf8EncodeChar c with _ | ⟨b, bs⟩
    · exact absurd he (utf8EncodeChar_ne_nil c)
    · exact ⟨b, rfl⟩

theorem oneShotPath_ne_self (name : String) : Client.oneShotPath name ≠ name := by
  intro heq
  have hlen := congrArg String.length heq
  have h34 : SOCKET_PATH.length = 33 := by decide
  have h1 : ("/" : String).length = 1 := rfl
  rw [Client.oneShotPath, String.length_append, String.length_append, h34, h1]
    at hlen
  omega

theorem utf8Lossy_nil : utf8Lossy [] = "" := by
  simp [utf8Lossy, utf8LossyChars]

/-! ## Claims -/

/-- C1 (counterexample): the one-shot client does not compute the same
resolved path as the Listener for a name beginning with `/`: for `"/a"`
the Listener (and the persistent Client) resolve to `"/a"` unchanged,
while `Client::send_one_shot` connects to `SOCKET_PATH ++ "//a"`. -/
theorem c1_counterexample :
    Client.oneShotPath "/a" ≠ "/a" ∧ Server.resolvePath "/a" = some "/a" ∧
    Client.resolvePath "/a" = some "/a" := by decide

/-- C1 (amended): for every non-empty name, `Server::new` and
`Client::new` compute the same resolved path — the name unchanged when its
first byte is `/`, `base/name` otherwise — and the one-shot client agrees
with them exactly on the names not beginning with `/`; on a name beginning
with `/` the one-shot client's path (always `base/name`) differs from the
unchanged name the other two use. -/
theorem c1_amended_resolution (name : String) (h : name ≠ "") :
    Server.resolvePath name = Client.resolvePath name ∧
    ((strBytes name).head? ≠ some 47 →
      Server.resolvePath name = some (Client.oneShotPath name)) ∧
    ((strBytes name).head? = some 47 →
      Server.resolvePath name = some name ∧ Client.oneShotPath name ≠ name) := by
  obtain ⟨b, hb⟩ := strBytes_head_exists name h
  refine ⟨?_, ?_, ?_⟩
  · by_cases h47 : b = 47 <;>
      simp [Server.resolvePath, Client.resolvePath, hb, h47]
  · intro hne
    rw [hb] at hne
    have h47 : b ≠ 47 := by intro x; exact hne (by rw [x])
    simp [Server.resolvePath, Client.oneShotPath, hb, h47]
  · intro heq
    rw [hb] at heq
    have h47 : b = 47 := Option.some.inj heq
    subst h47
    exact ⟨by simp [Server.resolvePath, hb], oneShotPath_ne_self name⟩

theorem c1_amended_resolution_witness :
    Server.resolvePath "/a" = Client.resolvePath "/a" ∧
    Client.oneShotPath "/a" ≠ "/a" :=
  ⟨(c1_amended_resolution "/a" (by decide)).1,
   ((c1_amended_resolution "/a" (by decide)).2.2 (by decide)).2⟩

/-- C2 (counterexample): a zero-byte underlying read is not turned into
`EndOfStream` everywhere: `Client::read` passes the zero-byte success
through unchanged, and the `Connection::read` of
`src/server/async_wrapper.rs` happily decodes zero bytes and returns a
value converted from the empty string. -/
theorem c2_counterexample :
    Client.read (Except.ok 0) = Except.ok 0 ∧
    Connection.read (fun s => s) (Except.ok []) = Except.ok "" := by
  refine ⟨rfl, ?_⟩
  show Except.ok (utf8Lossy []) = Except.ok ""
  rw [utf8Lossy_nil]

/-- C2 (amended): only the `AsyncConnection` reads of
`src/async_wrapper/mod.rs` turn a zero-byte read from a closed peer into
the `EndOfStream` (`UnexpectedEof`) error (and pass other errors
through); `Client::read` of `src/lib.rs` returns the zero-byte count as a
success, and `Connection::read` of `src/server/async_wrapper.rs` returns
a value decoded from zero bytes. -/
theorem c2_amended_reads :
    AsyncConnection.read_raw (Except.ok []) = Except.error IOErr.eof ∧
    (∀ (T : Type) (conv : String → T),
      AsyncConnection.read conv (Except.ok []) = Except.error IOErr.eof) ∧
    (∀ e, AsyncConnection.read_raw (Except.error e) = Except.error e) ∧
    Client.read (Except.ok 0) = Except.ok 0 ∧
    (∀ (T : Type) (conv : String → T),
      Connection.read conv (Except.ok []) = Except.ok (conv "")) := by
  refine ⟨rfl, fun T conv => rfl, fun e => rfl, rfl, fun T conv => ?_⟩
  show Except.ok (conv (utf8Lossy [])) = Except.ok (conv "")
  rw [utf8Lossy_nil]

/-- C3: a one-shot send with `DontWaitForResponse` that successfully
connects and writes returns exactly `Ok(0)`, its event trace contains no
read, and the connection is closed when the call returns; moreover on
every path after a successful connect — whatever the write or read
outcome and whatever the policy — the trace ends with the close of the
connection. -/
theorem c3_one_shot_dont_wait (data : List Nat) (path : String)
    (rr : Except IOErr Nat) (wr : Except IOErr Unit) (opt : ResponseOption) :
    Client.send_one_shot data path .dontWaitForResponse (.ok ()) (.ok ()) rr
      = (.ok 0, [.connected (Client.oneShotPath path), .wrote data, .closed]) ∧
    OneShotEvent.readEv ∉
      (Client.send_one_shot data path .dontWaitForResponse (.ok ()) (.ok ()) rr).2 ∧
    OneShotEvent.closed ∈ (Client.send_one_shot data path opt (.ok ()) wr rr).2 := by
  refine ⟨rfl, by simp [Client.send_one_shot], ?_⟩
  cases wr <;> cases opt <;> cases rr <;> simp [Client.send_one_shot]

/-- C4: listener construction is the two-step sequence delete-then-bind
at the resolved path: the result is independent of the `remove_file`
outcome (its failure is never propagated), the event trace is exactly the
`removeFile` followed by the `bind`, and a bind failure is returned as
the error of the whole construction.  This holds for `Server::new`
(whenever it resolves a path at all, i.e. does not panic on the empty
name) and unconditionally for `AsyncServer::new`. -/
theorem c4_bind_sequence :
    (∀ (name : String) (r b : Except IOErr Unit),
      Server.new name r b = (Server.resolvePath name).map
        (fun p => ((match b with
                    | .error e => .error e
                    | .ok _ => .ok { socket_name := name, listener := p }),
                   [BindEvent.removeFile p, BindEvent.bind p]))) ∧
    (∀ (m : String) (r b : Except IOErr Unit),
      AsyncServer.new m r b =
        ((match b with
          | .error e => .error e
          | .ok _ => .ok { listener := get_full_path m, raw_path := m }),
         [BindEvent.removeFile (get_full_path m),
          BindEvent.bind (get_full_path m)])) := by
  constructor
  · intro name r b
    rcases hp : Server.resolvePath name with _ | p <;>
      cases b <;> simp [Server.new, hp]
  · intro m r b
    cases b <;> simp [AsyncServer.new]

/-- C5: a successful `send` of a payload on one endpoint followed by a
`read_raw` on the peer with a buffer at least as large as the payload
yields exactly the payload bytes with the byte count equal to the payload
length, and leaves nothing pending (the `write_all` was all-or-nothing). -/
theorem c5_send_read_roundtrip (data : List Nat) (bufLen : Nat)
    (h1 : data ≠ []) (h2 : data.length ≤ bufLen) :
    AsyncConnection.read_raw
        (Except.ok (streamReadOnce bufLen (Client.send [] data)).1)
      = Except.ok (data.length, data) ∧
    (streamReadOnce bufLen (Client.send [] data)).2 = [] := by
  have hc : Client.send [] data = data := by
    simp [Client.send, UnixStream.write_all]
  have ht : data.take bufLen = data := List.take_of_length_le h2
  constructor
  · simp [streamReadOnce, hc, ht, AsyncConnection.read_raw, h1]
  · simp [streamReadOnce, hc, List.drop_eq_nil_of_le h2]

theorem c5_send_read_roundtrip_witness :
    AsyncConnection.read_raw
        (Except.ok (streamReadOnce 512 (Client.send [] [104, 105])).1)
      = Except.ok (2, [104, 105]) ∧
    (streamReadOnce 512 (Client.send [] [104, 105])).2 = [] :=
  c5_send_read_roundtrip [104, 105] 512 (by decide) (by decide)

/-- C6: a typed read reads at most 1024 bytes (the internal buffer size),
and — whenever any bytes arrive — returns the caller-supplied conversion
applied to the lossy UTF-8 decoding of exactly the received bytes, in both
the `AsyncConnection::read` and the `Connection::read` variant; the
decoding `utf8Lossy` is a total function, so it never fails. -/
theorem c6_typed_read {T : Type} (conv : String → T) (avail : List Nat)
    (h : avail ≠ []) :
    (streamRead1024 avail).length ≤ 1024 ∧
    AsyncConnection.read conv (Except.ok (streamRead1024 avail))
      = Except.ok (conv (utf8Lossy (streamRead1024 avail))) ∧
    Connection.read conv (Except.ok (streamRead1024 avail))
      = Except.ok (conv (utf8Lossy (streamRead1024 avail))) := by
  have h0 : 0 < avail.length := List.length_pos.mpr h
  have hlen : (streamRead1024 avail).length ≤ 1024 := by
    simp [streamRead1024]
  have hne : ¬ (streamRead1024 avail).length = 0 := by
    simp only [streamRead1024, List.length_take]
    omega
  refine ⟨hlen, ?_, ?_⟩ <;> simp [AsyncConnection.read, Connection.read, hne]

theorem c6_typed_read_witness :
    AsyncConnection.read (fun s => s) (Except.ok (streamRead1024 [104, 105]))
      = Except.ok (utf8Lossy (streamRead1024 [104, 105])) ∧
    utf8Lossy (streamRead1024 [104, 105]) = "hi" :=
  ⟨(c6_typed_read (fun s => s) [104, 105] (by decide)).2.1,
   by simp [streamRead1024, utf8Lossy, utf8LossyChars, replChar, isCont]⟩

/-- C7 (counterexample): on an underlying accept failure the async
accept-one operations return `none` — a silent absence, not an explicit
`AcceptError` value — and discard the error: two different I/O errors
produce the same `none`. -/
theorem c7_counterexample :
    AsyncServer.wait_for_connection (Except.error (IOErr.other 3)) = none ∧
    AsyncListener.wait_for_connection (Except.error (IOErr.other 3)) = none ∧
    AsyncServer.wait_for_connection (Except.error (IOErr.other 7))
      = AsyncServer.wait_for_connection (Except.error (IOErr.other 3)) :=
  ⟨rfl, rfl, rfl⟩

/-- C7 (amended): the async accept-one operations return an `Option`: on
success an owned connection wrapping the accepted stream, on underlying
I/O failure `none` with the error discarded (unlike the blocking
`wait_connection`, which propagates the error); the listener itself is
untouched by a failed accept, so the caller may retry. -/
theorem c7_amended_accept :
    (∀ e, AsyncServer.wait_for_connection (Except.error e) = none) ∧
    (∀ s, AsyncServer.wait_for_connection (Except.ok s) = some ⟨s⟩) ∧
    (∀ e, AsyncListener.wait_for_connection (Except.error e) = none) ∧
    (∀ s, AsyncListener.wait_for_connection (Except.ok s) = some ⟨s⟩) :=
  ⟨fun _ => rfl, fun _ => rfl, fun _ => rfl, fun _ => rfl⟩

/-- C8: `Server::listen` is an accept loop that, per iteration, accepts a
stream and synchronously invokes the handler exactly once on it before
touching the next item: an accept error is returned immediately (ending
the loop with nothing further handled), a handler panic unwinds out of
the loop right after the one invocation, and when every handler call
returns, the trace is exactly accept-then-invoke for each stream in order
with the loop still pending — it never terminates or restarts an
iteration on its own. -/
theorem c8_listen_loop (callback : Nat → Option Unit) :
    (∀ e rest, Server.listen callback (.error e :: rest) = (.err e, [])) ∧
    (∀ s rest, callback s = none →
      Server.listen callback (.ok s :: rest)
        = (.panicked, [.accepted s, .invoked s])) ∧
    (∀ s rest, callback s = some () →
      Server.listen callback (.ok s :: rest)
        = ((Server.listen callback rest).1,
           .accepted s :: .invoked s :: (Server.listen callback rest).2)) ∧
    (∀ streams : List Nat, (∀ s ∈ streams, callback s = some ()) →
      Server.listen callback (streams.map .ok)
        = (.pending,
           (streams.map fun s => [LEvent.accepted s, LEvent.invoked s]).flatten)) := by
  refine ⟨fun e rest => rfl, ?_, ?_, ?_⟩
  · intro s rest hcb
    simp [Server.listen, Server.handle_client, hcb]
  · intro s rest hcb
    simp [Server.listen, Server.handle_client, hcb]
  · intro streams hall
    induction streams with
    | nil => rfl
    | cons s ss ih =>
      have hs : callback s = some () := hall s (by simp)
      have ihh := ih (fun t ht => hall t (by simp [ht]))
      simp [Server.listen, Server.handle_client, hs, ihh]

theorem c8_listen_loop_witness :
    Server.listen (fun _ => some ()) [Except.ok 1, Except.ok 2]
      = (.pending, [.accepted 1, .invoked 1, .accepted 2, .invoked 2]) := by
  have h := (c8_listen_loop (fun _ => some ())).2.2.2 [1, 2] (by intro s _; rfl)
  simpa using h

/-- C9: on the empty socket name both `Server::new` and `Client::new`
panic (out-of-bounds index on byte 0 of the name), modelled by their path
resolution returning `none`; on every non-empty name the resolution
succeeds, so a non-empty name is exactly the non-panicking precondition. -/
theorem c9_empty_name_panics :
    Server.resolvePath "" = none ∧ Client.resolvePath "" = none ∧
    ∀ name : String, name ≠ "" →
      (Server.resolvePath name).isSome ∧ (Client.resolvePath name).isSome := by
  refine ⟨rfl, rfl, ?_⟩
  intro name h
  obtain ⟨b, hb⟩ := strBytes_head_exists name h
  constructor <;> simp [Server.resolvePath, Client.resolvePath, hb]

theorem c9_empty_name_panics_witness :
    (Server.resolvePath "a").isSome ∧ (Client.resolvePath "a").isSome :=
  c9_empty_name_panics.2.2 "a" (by decide)

/-- C10: on every non-empty name the byte-based resolution of
`Server::new` (`as_bytes()[0] == b'/'`) and the character-based
resolution of `RawListener::new` (`starts_with('/')`) produce the same
path: the first UTF-8 byte of a string is `b'/'` exactly when its first
character is `'/'`. -/
theorem c10_resolver_equivalence (name : String) (h : name ≠ "") :
    Server.resolvePath name = some (RawListener.resolvePath name) := by
  rcases hd : name.data with _ | ⟨c, cs⟩
  · exact absurd hd (data_ne_nil_of_ne_empty name h)
  · have hh := strBytes_head name c cs hd
    unfold Server.resolvePath RawListener.resolvePath
    rw [hh, hd]
    rcases he : (utf8EncodeChar c).head? with _ | b
    · rcases hee : utf8EncodeChar c with _ | ⟨b', bs⟩
      · exact absurd hee (utf8EncodeChar_ne_nil c)
      · rw [hee] at he; simp at he
    · by_cases hb : b = 47
      · subst hb
        have hc : c = '/' := (head_utf8EncodeChar c).1 he
        simp [hc]
      · have hc : ¬ (c = '/') := by
          intro hc
          subst hc
          have h47 := (head_utf8EncodeChar '/').2 rfl
          rw [he] at h47
          exact hb (Option.some.inj h47)
        simp [hb, hc]

theorem c10_resolver_equivalence_witness :
    Server.resolvePath "x" = some (RawListener.resolvePath "x") :=
  c10_resolver_equivalence "x" (by decide)

end IPC
